import Mathlib

/-!
Verification development for the pharmacy point-of-sale backend.

The definitions below are a shallow embedding of the two transactional
routines of the repository:

* `createOrder` — `src/server/controllers/supplierController.js`, the
  order-creation handler (validation / pricing / stock decrement);
* `receivePurchaseOrder` — same file, the purchase-order receiving handler.

Monetary values are rationals (the source computes with JS numbers and the
spec stipulates full-precision decimal computation; every literal involved
here is exactly representable).  Quantities are integers.  Document-database
stores are functions from identifiers to optional records; a Mongoose
`save` inside a session is `Function.update` on the working store, and a
transaction abort returns the original store.  JavaScript truthy-or
fallback (`a || b`) on numeric and string fields is modelled by `jsOr` /
`jsOrStr`, which treat a supplied `0` / `""` as absent, exactly as the
source does.
-/

set_option maxHeartbeats 1000000

namespace Medical

/-- JS `a || b` on an optional numeric field: an absent value or a supplied
`0` falls back to the default, any other supplied value wins. -/
def jsOr (o : Option ℚ) (d : ℚ) : ℚ :=
  match o with
  | none => d
  | some v => if v = 0 then d else v

/-- JS `a || b` on an optional string field: absent or `""` falls back. -/
def jsOrStr (o : Option String) (d : String) : String :=
  match o with
  | none => d
  | some s => if s = "" then d else s

/-- A catalog entry, from the `Medicine` schema (`models/Medicine`): prices,
GST per unit, on-hand quantity, optional batch number and expiry date
(dates are integer timestamps). -/
structure Medicine where
  name : String
  manufacturer : String
  batchNumber : Option String
  retailPrice : ℚ
  tradePrice : ℚ
  gstPerUnit : ℚ
  quantity : ℤ
  expiryDate : Option ℤ
deriving DecidableEq, Inhabited

/-- The catalog store: `Medicine.findById`. -/
abbrev Catalog := Nat → Option Medicine

/-- Expiry check `medicine.expiryDate && new Date(medicine.expiryDate) < new Date()`:
expired means an expiry date is present and strictly before `now`. -/
def expiredAtB (m : Medicine) (now : ℤ) : Bool :=
  match m.expiryDate with
  | some e => decide (e < now)
  | none => false

/-- One cart line of the request body:
`{ medicineId, quantity, unitPrice?, tradePrice?, discountPercent?, gstPerUnit? }`. -/
structure CartItem where
  medicineId : Option Nat
  quantity : ℤ
  unitPrice : Option ℚ
  tradePrice : Option ℚ
  discountPercent : Option ℚ
  gstPerUnit : Option ℚ
deriving DecidableEq, Inhabited

/-- The per-line financial quantities computed by `createOrder`. -/
structure LineCalc where
  lineSubtotal : ℚ
  discountAmount : ℚ
  afterDiscount : ℚ
  gstAmount : ℚ
  total : ℚ
  profitPerUnit : ℚ
  profit : ℚ
deriving DecidableEq, Inhabited

/-- The line computation of `createOrder` (controller lines 799-819), on the
resolved unit price `u`, trade price `t`, discount percent `dPct`, GST per
unit `g` and quantity `q`:
`itemSubtotalBeforeDiscount = unitPrice * quantity`,
`itemDiscountAmount = itemSubtotalBeforeDiscount * discountPercentage / 100`,
`itemSubtotalAfterDiscount = itemSubtotalBeforeDiscount - itemDiscountAmount`,
`itemGstAmount = gstPerUnit * quantity`,
`itemTotal = itemSubtotalAfterDiscount + itemGstAmount`,
`profitPerUnit = Math.max(0, unitPrice - itemDiscountAmount / quantity - tradePrice)`,
`itemProfit = profitPerUnit * quantity`. -/
def computeLine (u t dPct g : ℚ) (q : ℤ) : LineCalc :=
  let lineSubtotal := u * (q : ℚ)
  let discountAmount := lineSubtotal * dPct / 100
  let afterDiscount := lineSubtotal - discountAmount
  let gstAmount := g * (q : ℚ)
  { lineSubtotal := lineSubtotal
    discountAmount := discountAmount
    afterDiscount := afterDiscount
    gstAmount := gstAmount
    total := afterDiscount + gstAmount
    profitPerUnit := max 0 (u - discountAmount / (q : ℚ) - t)
    profit := max 0 (u - discountAmount / (q : ℚ) - t) * (q : ℚ) }

/-- Resolution `parseFloat(item.unitPrice || medicine.retailPrice)`. -/
def resolvedUnitPrice (item : CartItem) (m : Medicine) : ℚ :=
  jsOr item.unitPrice m.retailPrice

/-- Resolution `parseFloat(item.tradePrice || medicine.tradePrice)`. -/
def resolvedTradePrice (item : CartItem) (m : Medicine) : ℚ :=
  jsOr item.tradePrice m.tradePrice

/-- Resolution `parseFloat(item.discountPercent || 0)`. -/
def resolvedDiscount (item : CartItem) : ℚ :=
  jsOr item.discountPercent 0

/-- Resolution `parseFloat(item.gstPerUnit || medicine.gstPerUnit || 0)`. -/
def resolvedGst (item : CartItem) (m : Medicine) : ℚ :=
  jsOr item.gstPerUnit (jsOr (some m.gstPerUnit) 0)

/-- The line computation applied to one cart line and its catalog entry. -/
def lineCalcOf (item : CartItem) (m : Medicine) : LineCalc :=
  computeLine (resolvedUnitPrice item m) (resolvedTradePrice item m)
    (resolvedDiscount item) (resolvedGst item m) item.quantity

/-- One persisted order line item, the object pushed on
`orderItemsDetails` (controller lines 821-832). -/
structure OrderItemDetail where
  medicineId : Nat
  name : String
  manufacturer : String
  quantity : ℤ
  retailPrice : ℚ
  tradePrice : ℚ
  discount : ℚ
  discountAmount : ℚ
  totalPrice : ℚ
  profit : ℚ
deriving DecidableEq, Inhabited

/-- Build the persisted line-item snapshot for one accepted cart line. -/
def detailOf (mid : Nat) (item : CartItem) (m : Medicine) : OrderItemDetail :=
  let c := lineCalcOf item m
  { medicineId := mid
    name := m.name
    manufacturer := jsOrStr (some m.manufacturer) "Unknown"
    quantity := item.quantity
    retailPrice := resolvedUnitPrice item m
    tradePrice := resolvedTradePrice item m
    discount := resolvedDiscount item
    discountAmount := c.discountAmount
    totalPrice := c.total
    profit := max 0 c.profit }

/-- Failure modes of `createOrder`, per the response branches of the
controller.  `internalError` stands for a thrown exception caught by the
surrounding try/catch (HTTP 500). -/
inductive OrderError where
  | emptyItems
  | invalidItem
  | invalidPrice (name : String)
  | invalidDiscount (name : String)
  | insufficientInventory (errs : List String)
  | concurrentConflict (name : String)
  | internalError
deriving DecidableEq

/-- Per-line message for a missing catalog entry. -/
def notFoundMsg (mid : Nat) : String :=
  "Medicine with ID " ++ toString mid ++ " not found"

/-- Per-line message for insufficient stock. -/
def shortMsg (m : Medicine) (q : ℤ) : String :=
  m.name ++ ": requested " ++ toString q ++ ", available " ++ toString m.quantity

/-- Per-line message for an expired catalog entry. -/
def expiredMsg (m : Medicine) : String :=
  m.name ++ " has expired"

/-- The first pass of `createOrder` (controller lines 741-833): walk the cart
collecting per-line inventory errors (`continue`), aborting outright on a
malformed line, a negative resolved price, or an out-of-range discount, and
otherwise accumulating the line-item snapshots, the running subtotal and the
running total profit. -/
def processItems (σ : Catalog) (now : ℤ) :
    List CartItem → List String → List OrderItemDetail → ℚ → ℚ →
    Except OrderError (List String × List OrderItemDetail × ℚ × ℚ)
  | [], errs, acc, sub, prof => .ok (errs, acc, sub, prof)
  | item :: rest, errs, acc, sub, prof =>
    match item.medicineId with
    | none => .error .invalidItem
    | some mid =>
      if item.quantity ≤ 0 then .error .invalidItem
      else
        match σ mid with
        | none => processItems σ now rest (errs ++ [notFoundMsg mid]) acc sub prof
        | some m =>
          if m.quantity < item.quantity then
            processItems σ now rest (errs ++ [shortMsg m item.quantity]) acc sub prof
          else if expiredAtB m now then
            processItems σ now rest (errs ++ [expiredMsg m]) acc sub prof
          else if resolvedUnitPrice item m < 0 ∨ resolvedTradePrice item m < 0 then
            .error (.invalidPrice m.name)
          else if resolvedDiscount item < 0 ∨ 100 < resolvedDiscount item then
            .error (.invalidDiscount m.name)
          else
            processItems σ now rest errs (acc ++ [detailOf mid item m])
              (sub + (lineCalcOf item m).total) (prof + (lineCalcOf item m).profit)

/-- The optional `customer` descriptor of the request body. -/
structure Customer where
  name : Option String
  phone : Option String
deriving DecidableEq, Inhabited

/-- The optional `payment` descriptor of the request body. -/
structure Payment where
  taxPercent : Option ℚ
  globalDiscount : Option ℚ
  method : Option String
deriving DecidableEq, Inhabited

/-- The optional caller-supplied `totals` descriptor of the request body. -/
structure Totals where
  subtotal : Option ℚ
  taxAmount : Option ℚ
  grandTotal : Option ℚ
deriving DecidableEq, Inhabited

/-- The request body of `createOrder`. -/
structure OrderRequest where
  items : List CartItem
  customer : Option Customer
  payment : Option Payment
  totals : Option Totals
  status : Option String
deriving DecidableEq, Inhabited

/-- A persisted `Order` record, as constructed at controller lines 877-890. -/
structure Order where
  customerName : String
  customerPhone : String
  items : List OrderItemDetail
  subtotal : ℚ
  taxPercent : ℚ
  taxAmount : ℚ
  discountAmount : ℚ
  total : ℚ
  profit : ℚ
  status : String
  paymentMethod : String
deriving DecidableEq, Inhabited

/-- Final totals and the `new Order({...})` construction (controller lines
867-890): prefer caller-supplied totals when truthy, else derive from the
computed subtotal and the payment descriptor; clamp every monetary field
with `Math.max(0, _)`. -/
def mkOrder (req : OrderRequest) (details : List OrderItemDetail) (sub prof : ℚ) : Order :=
  let taxPercent := jsOr (req.payment.bind Payment.taxPercent) 0
  let globalDiscount := jsOr (req.payment.bind Payment.globalDiscount) 0
  let finalSubtotal := jsOr (req.totals.bind Totals.subtotal) sub
  let finalTaxAmount := jsOr (req.totals.bind Totals.taxAmount) (finalSubtotal * taxPercent / 100)
  let finalTotal := jsOr (req.totals.bind Totals.grandTotal)
    (finalSubtotal + finalTaxAmount - globalDiscount)
  { customerName := jsOrStr (req.customer.bind Customer.name) "Walk-in Customer"
    customerPhone := jsOrStr (req.customer.bind Customer.phone) ""
    items := details
    subtotal := max 0 finalSubtotal
    taxPercent := max 0 taxPercent
    taxAmount := max 0 finalTaxAmount
    discountAmount := max 0 globalDiscount
    total := max 0 finalTotal
    profit := max 0 prof
    status := req.status.getD "completed"
    paymentMethod := jsOrStr (req.payment.bind Payment.method) "cash" }

/-- Mongoose `medicine.save({ session })` on the working store. -/
def saveMed (σw : Catalog) (mid : Nat) (m : Medicine) : Catalog :=
  Function.update σw mid (some m)

/-- The second pass of `createOrder` (controller lines 846-865): re-fetch each
line's catalog entry inside the session, re-check stock (the concurrent-order
guard) and decrement.  A line whose lookup fails here would throw in the
source (`medicine.quantity` on `null`) and surface as a 500. -/
def decrementLoop : Catalog → List CartItem → Except OrderError Catalog
  | σw, [] => .ok σw
  | σw, item :: rest =>
    match item.medicineId with
    | none => .error .internalError
    | some mid =>
      match σw mid with
      | none => .error .internalError
      | some m =>
        if m.quantity < item.quantity then .error (.concurrentConflict m.name)
        else decrementLoop (saveMed σw mid { m with quantity := m.quantity - item.quantity }) rest

/-- Handler `createOrder` (controller lines 711-936), as a function from the current
catalog snapshot to either an error (the transaction is aborted, nothing is
persisted) or the persisted `Order` together with the committed catalog. -/
def createOrder (σ : Catalog) (now : ℤ) (req : OrderRequest) :
    Except OrderError (Order × Catalog) :=
  if req.items.isEmpty then .error .emptyItems
  else
    match processItems σ now req.items [] [] 0 0 with
    | .error e => .error e
    | .ok (errs, details, sub, prof) =>
      if errs.isEmpty then
        match decrementLoop σ req.items with
        | .error e => .error e
        | .ok σ2 => .ok (mkOrder req details sub prof, σ2)
      else .error (.insufficientInventory errs)

/-- The observable outcome of one `createOrder` request: the persisted order
(if any) and the catalog the next request will see.  On any error the
transaction is aborted, so the catalog is the input catalog unchanged. -/
def runCreateOrder (σ : Catalog) (now : ℤ) (req : OrderRequest) : Option Order × Catalog :=
  match createOrder σ now req with
  | .ok (o, σ2) => (some o, σ2)
  | .error _ => (none, σ)

/-- One line item of a purchase order, keyed by its subdocument `_id` and
pointing at a catalog entry. -/
structure POItem where
  id : Nat
  medicineId : Nat
deriving DecidableEq, Inhabited

/-- A purchase-order record; only the fields the receiving routine reads. -/
structure PurchaseOrder where
  id : Nat
  status : String
  items : List POItem
deriving DecidableEq, Inhabited

/-- One element of `itemUpdates`:
`{ itemId, receivedQuantity, batchNumber?, expiryDate? }`. -/
structure ItemUpdate where
  itemId : Nat
  receivedQuantity : ℤ
  batchNumber : Option String
  expiryDate : Option ℤ
deriving DecidableEq, Inhabited

/-- The purchase-order store: `PurchaseOrder.findById`. -/
abbrev POStore := Nat → Option PurchaseOrder

/-- Failure modes of `receivePurchaseOrder` (404 and 400 branches). -/
inductive ReceiveError where
  | notFound
  | invalidState
deriving DecidableEq

/-- One iteration of the inventory loop of `receivePurchaseOrder`
(controller lines 551-576): locate the line item by `itemId`; when it exists
and `receivedQuantity > 0`, look up the catalog entry and, when that exists,
increment its quantity and overwrite batch number / expiry date when a
truthy one is supplied. -/
def applyItemUpdate (po : PurchaseOrder) (σw : Catalog) (u : ItemUpdate) : Catalog :=
  match po.items.find? (fun it => it.id == u.itemId) with
  | none => σw
  | some it =>
    if 0 < u.receivedQuantity then
      match σw it.medicineId with
      | none => σw
      | some m =>
        saveMed σw it.medicineId
          { m with
            quantity := m.quantity + u.receivedQuantity
            batchNumber :=
              match u.batchNumber with
              | some b => if b = "" then m.batchNumber else some b
              | none => m.batchNumber
            expiryDate :=
              match u.expiryDate with
              | some e => some e
              | none => m.expiryDate }
    else σw

/-- The full inventory loop of `receivePurchaseOrder` over `itemUpdates`. -/
def receiveLoop (po : PurchaseOrder) : Catalog → List ItemUpdate → Catalog
  | σw, [] => σw
  | σw, u :: rest => receiveLoop po (applyItemUpdate po σw u) rest

/-- Modelled from the spec: `purchaseOrder.receiveItems(itemUpdates, userId)`
lives in the `PurchaseOrder` model, which is not among the provided source
files.  Per the spec it transitions the purchase order to `received` (and
stamps the receiving actor and timestamp, which this model omits). -/
def receiveItems (po : PurchaseOrder) : PurchaseOrder :=
  { po with status := "received" }

/-- Handler `receivePurchaseOrder` (controller lines 518-599): 404 when the purchase
order is missing, 400 when its status is already `received` or `cancelled`,
otherwise apply every item update to the catalog inside the session, mark
the purchase order received and commit. -/
def receivePurchaseOrder (σ : Catalog) (pos : POStore) (poId : Nat)
    (updates : List ItemUpdate) : Except ReceiveError (Catalog × PurchaseOrder) :=
  match pos poId with
  | none => .error .notFound
  | some po =>
    if po.status = "received" ∨ po.status = "cancelled" then .error .invalidState
    else .ok (receiveLoop po σ updates, receiveItems po)

/-- Mongoose `purchaseOrder.save` semantics on the store. -/
def savePO (pos : POStore) (po : PurchaseOrder) : POStore :=
  Function.update pos po.id (some po)

/-- The observable outcome of one receive request: on any error the
transaction is aborted and both stores are unchanged. -/
def runReceive (σ : Catalog) (pos : POStore) (poId : Nat)
    (updates : List ItemUpdate) : Catalog × POStore :=
  match receivePurchaseOrder σ pos poId updates with
  | .ok (σ2, po2) => (σ2, savePO pos po2)
  | .error _ => (σ, pos)

/-- Total quantity the cart orders for one catalog entry (duplicate lines
for the same entry add up). -/
def totalOrdered (items : List CartItem) (mid : Nat) : ℤ :=
  (items.map fun it => if it.medicineId = some mid then it.quantity else 0).sum

/-- The quantity one item update contributes to catalog entry `mid`: its
`receivedQuantity` when the update matches a line item pointing at `mid`,
the received quantity is positive and the entry exists. -/
def updAmount (σ : Catalog) (po : PurchaseOrder) (mid : Nat) (u : ItemUpdate) : ℤ :=
  match po.items.find? (fun it => it.id == u.itemId) with
  | none => 0
  | some it =>
    if it.medicineId = mid ∧ 0 < u.receivedQuantity ∧ (σ it.medicineId).isSome
    then u.receivedQuantity else 0

/-- Total quantity the receive request adds to catalog entry `mid`. -/
def receivedFor (σ : Catalog) (po : PurchaseOrder) (updates : List ItemUpdate)
    (mid : Nat) : ℤ :=
  (updates.map (updAmount σ po mid)).sum

/-- The list of per-line inventory error messages `createOrder` collects for
a cart: one message, in cart order, for every line whose catalog entry is
missing, short on stock, or expired (mirrors the `continue` branches of the
first pass). -/
def lineIssues (σ : Catalog) (now : ℤ) : List CartItem → List String
  | [] => []
  | item :: rest =>
    match item.medicineId with
    | none => lineIssues σ now rest
    | some mid =>
      match σ mid with
      | none => notFoundMsg mid :: lineIssues σ now rest
      | some m =>
        if m.quantity < item.quantity then shortMsg m item.quantity :: lineIssues σ now rest
        else if expiredAtB m now then expiredMsg m :: lineIssues σ now rest
        else lineIssues σ now rest

/-- A cart line that cannot make the first pass abort with `InvalidInput`:
it has an identifier and a positive quantity, and whenever its catalog entry
exists, is sufficiently stocked and unexpired (so that the price checks are
reached), its resolved prices are nonnegative and its resolved discount is
in range. -/
def lineBasicOkB (σ : Catalog) (now : ℤ) (item : CartItem) : Bool :=
  match item.medicineId with
  | none => false
  | some mid =>
    decide (0 < item.quantity) &&
    match σ mid with
    | none => true
    | some m =>
      if m.quantity < item.quantity then true
      else if expiredAtB m now then true
      else
        decide (0 ≤ resolvedUnitPrice item m) && decide (0 ≤ resolvedTradePrice item m) &&
        decide (0 ≤ resolvedDiscount item) && decide (resolvedDiscount item ≤ 100)

/-- A cart line that sails through every check of the first pass and
produces a line-item snapshot. -/
def cleanLineB (σ : Catalog) (now : ℤ) (item : CartItem) : Bool :=
  match item.medicineId with
  | none => false
  | some mid =>
    decide (0 < item.quantity) &&
    match σ mid with
    | none => false
    | some m =>
      decide (item.quantity ≤ m.quantity) && !(expiredAtB m now) &&
      decide (0 ≤ resolvedUnitPrice item m) && decide (0 ≤ resolvedTradePrice item m) &&
      decide (0 ≤ resolvedDiscount item) && decide (resolvedDiscount item ≤ 100)

/-- Schema-level invariants the `Medicine` model enforces on every persisted
document (`min: 0` on `gstPerUnit` and `quantity`). -/
def MedWF (m : Medicine) : Prop := 0 ≤ m.gstPerUnit ∧ 0 ≤ m.quantity

/-- A catalog all of whose entries satisfy the schema invariants. -/
def CatalogWF (σ : Catalog) : Prop := ∀ i m, σ i = some m → MedWF m

/-- Build a concrete catalog from an association list. -/
def ofList (l : List (Nat × Medicine)) : Catalog :=
  fun i => (l.find? (fun p => p.1 == i)).map Prod.snd

/-- Build a concrete purchase-order store from an association list. -/
def poOfList (l : List (Nat × PurchaseOrder)) : POStore :=
  fun i => (l.find? (fun p => p.1 == i)).map Prod.snd

lemma ofList_wf (l : List (Nat × Medicine)) (h : ∀ p ∈ l, MedWF p.2) :
    CatalogWF (ofList l) := by
  intro i m hm
  unfold ofList at hm
  cases hfind : l.find? (fun p => p.1 == i) with
  | none => rw [hfind] at hm; cases hm
  | some p =>
    rw [hfind] at hm
    cases hm
    exact h p (List.mem_of_find?_eq_some hfind)

/-- What the first pass guarantees about every line-item snapshot it emits:
it comes from a cart line whose catalog entry exists and which passed the
quantity, price and discount validations. -/
def acceptedDetail (σ : Catalog) (items : List CartItem) (d : OrderItemDetail) : Prop :=
  ∃ item mid m, item ∈ items ∧ item.medicineId = some mid ∧ σ mid = some m ∧
    0 < item.quantity ∧ 0 ≤ resolvedUnitPrice item m ∧ 0 ≤ resolvedTradePrice item m ∧
    0 ≤ resolvedDiscount item ∧ resolvedDiscount item ≤ 100 ∧ d = detailOf mid item m

lemma jsOr_nonneg {o : Option ℚ} {d : ℚ} (ho : ∀ v, o = some v → 0 ≤ v) (hd : 0 ≤ d) :
    0 ≤ jsOr o d := by
  cases o with
  | none => simpa [jsOr] using hd
  | some v =>
    simp only [jsOr]
    split
    · exact hd
    · exact ho v rfl

lemma jsOr_some_zero (x : ℚ) : jsOr (some x) 0 = x := by
  by_cases h : x = 0 <;> simp [jsOr, h]

lemma resolvedGst_nonneg (item : CartItem) (m : Medicine) (hm : 0 ≤ m.gstPerUnit)
    (hi : ∀ v, item.gstPerUnit = some v → 0 ≤ v) : 0 ≤ resolvedGst item m := by
  unfold resolvedGst
  exact jsOr_nonneg hi (by rw [jsOr_some_zero]; exact hm)

lemma detailOf_totalPrice_nonneg (mid : Nat) (item : CartItem) (m : Medicine)
    (hq : 0 < item.quantity) (hu : 0 ≤ resolvedUnitPrice item m)
    (hd0 : 0 ≤ resolvedDiscount item) (hd1 : resolvedDiscount item ≤ 100)
    (hg : 0 ≤ resolvedGst item m) :
    0 ≤ (detailOf mid item m).totalPrice := by
  have hq2 : (0:ℚ) ≤ (item.quantity : ℚ) := by exact_mod_cast hq.le
  show 0 ≤ (lineCalcOf item m).total
  unfold lineCalcOf computeLine
  simp only
  nlinarith [mul_nonneg hu hq2, mul_nonneg hg hq2,
    mul_nonneg (mul_nonneg hu hq2) (sub_nonneg.2 hd1)]

lemma detailOf_totalPrice (mid : Nat) (item : CartItem) (m : Medicine) :
    (detailOf mid item m).totalPrice = (lineCalcOf item m).total := rfl

/-- Success inversion for the first pass: on `.ok` the emitted snapshots are
appended in cart order, the subtotal accumulator advances by exactly their
`totalPrice` sum, and every emitted snapshot is an `acceptedDetail`. -/
lemma processItems_ok_inv (σ : Catalog) (now : ℤ) (items : List CartItem) :
    ∀ errs acc sub prof errs2 acc2 sub2 prof2,
      processItems σ now items errs acc sub prof = Except.ok (errs2, acc2, sub2, prof2) →
      ∃ L, acc2 = acc ++ L ∧ sub2 = sub + (L.map OrderItemDetail.totalPrice).sum ∧
        ∀ d ∈ L, acceptedDetail σ items d := by
  induction items with
  | nil =>
    intro errs acc sub prof errs2 acc2 sub2 prof2 h
    simp only [processItems, Except.ok.injEq, Prod.mk.injEq] at h
    obtain ⟨-, ha, hs, -⟩ := h
    exact ⟨[], by simp [ha], by simp [hs], by simp⟩
  | cons item rest ih =>
    intro errs acc sub prof errs2 acc2 sub2 prof2 h
    rw [processItems] at h
    cases hid : item.medicineId with
    | none => simp only [hid] at h; exact Except.noConfusion h
    | some mid =>
      simp only [hid] at h
      by_cases hq : item.quantity ≤ 0
      · rw [if_pos hq] at h; exact Except.noConfusion h
      rw [if_neg hq] at h
      cases hm : σ mid with
      | none =>
        simp only [hm] at h
        obtain ⟨L, ha, hs, hmem⟩ := ih _ _ _ _ _ _ _ _ h
        exact ⟨L, ha, hs, fun d hd => by
          obtain ⟨it, mi, me, hin, rest'⟩ := hmem d hd
          exact ⟨it, mi, me, List.mem_cons_of_mem _ hin, rest'⟩⟩
      | some m =>
        simp only [hm] at h
        by_cases hstock : m.quantity < item.quantity
        · rw [if_pos hstock] at h
          obtain ⟨L, ha, hs, hmem⟩ := ih _ _ _ _ _ _ _ _ h
          exact ⟨L, ha, hs, fun d hd => by
            obtain ⟨it, mi, me, hin, rest'⟩ := hmem d hd
            exact ⟨it, mi, me, List.mem_cons_of_mem _ hin, rest'⟩⟩
        rw [if_neg hstock] at h
        by_cases hexp : expiredAtB m now = true
        · rw [if_pos hexp] at h
          obtain ⟨L, ha, hs, hmem⟩ := ih _ _ _ _ _ _ _ _ h
          exact ⟨L, ha, hs, fun d hd => by
            obtain ⟨it, mi, me, hin, rest'⟩ := hmem d hd
            exact ⟨it, mi, me, List.mem_cons_of_mem _ hin, rest'⟩⟩
        rw [if_neg hexp] at h
        by_cases hpr : resolvedUnitPrice item m < 0 ∨ resolvedTradePrice item m < 0
        · rw [if_pos hpr] at h; exact Except.noConfusion h
        rw [if_neg hpr] at h
        by_cases hdc : resolvedDiscount item < 0 ∨ 100 < resolvedDiscount item
        · rw [if_pos hdc] at h; exact Except.noConfusion h
        rw [if_neg hdc] at h
        obtain ⟨L, ha, hs, hmem⟩ := ih _ _ _ _ _ _ _ _ h
        refine ⟨detailOf mid item m :: L, ?_, ?_, ?_⟩
        · simpa [List.append_assoc] using ha
        · rw [hs]
          simp only [List.map_cons, List.sum_cons, detailOf_totalPrice]
          ring
        · intro d hd
          rcases List.mem_cons.mp hd with hhead | htail
          · push_neg at hpr hdc
            exact ⟨item, mid, m, List.mem_cons_self _ _, hid, hm, not_le.mp hq,
              hpr.1, hpr.2, hdc.1, hdc.2, hhead⟩
          · obtain ⟨it, mi, me, hin, rest'⟩ := hmem d htail
            exact ⟨it, mi, me, List.mem_cons_of_mem _ hin, rest'⟩

lemma totalOrdered_nil (mid : Nat) : totalOrdered [] mid = 0 := rfl

lemma totalOrdered_cons (item : CartItem) (rest : List CartItem) (mid : Nat) :
    totalOrdered (item :: rest) mid =
      (if item.medicineId = some mid then item.quantity else 0) + totalOrdered rest mid := by
  simp [totalOrdered]

/-- The decrement pass only ever changes quantities: on success, every
entry's quantity drops by exactly the total the cart orders for it. -/
lemma decrementLoop_quantity (items : List CartItem) :
    ∀ σw σ2, decrementLoop σw items = Except.ok σ2 →
      ∀ mid, (σ2 mid).map Medicine.quantity =
        (σw mid).map fun m => m.quantity - totalOrdered items mid := by
  induction items with
  | nil =>
    intro σw σ2 h mid
    simp only [decrementLoop, Except.ok.injEq] at h
    subst h
    cases hσ : σw mid <;> simp [totalOrdered_nil, hσ]
  | cons item rest ih =>
    intro σw σ2 h mid
    rw [decrementLoop] at h
    cases hid : item.medicineId with
    | none => simp only [hid] at h; exact Except.noConfusion h
    | some mid0 =>
      simp only [hid] at h
      cases hm : σw mid0 with
      | none => simp only [hm] at h; exact Except.noConfusion h
      | some m =>
        simp only [hm] at h
        by_cases hlt : m.quantity < item.quantity
        · rw [if_pos hlt] at h; exact Except.noConfusion h
        rw [if_neg hlt] at h
        have h2 := ih _ _ h mid
        rw [h2, totalOrdered_cons, hid]
        by_cases hmid : mid = mid0
        · subst hmid
          simp [saveMed, Function.update_same, hm]
          omega
        · have : mid0 ≠ mid := fun hc => hmid hc.symm
          simp [saveMed, Function.update_noteq hmid, this]

/-- The decrement pass preserves nonnegativity of every stored quantity:
the pre-decrement re-check refuses to drive a quantity below zero. -/
lemma decrementLoop_nonneg (items : List CartItem) :
    ∀ σw σ2, (∀ i m, σw i = some m → 0 ≤ m.quantity) →
      decrementLoop σw items = Except.ok σ2 →
      ∀ i m, σ2 i = some m → 0 ≤ m.quantity := by
  induction items with
  | nil =>
    intro σw σ2 hnn h
    simp only [decrementLoop, Except.ok.injEq] at h
    subst h
    exact hnn
  | cons item rest ih =>
    intro σw σ2 hnn h
    rw [decrementLoop] at h
    cases hid : item.medicineId with
    | none => simp only [hid] at h; exact Except.noConfusion h
    | some mid0 =>
      simp only [hid] at h
      cases hm : σw mid0 with
      | none => simp only [hm] at h; exact Except.noConfusion h
      | some m =>
        simp only [hm] at h
        by_cases hlt : m.quantity < item.quantity
        · rw [if_pos hlt] at h; exact Except.noConfusion h
        rw [if_neg hlt] at h
        refine ih _ _ ?_ h
        intro i m2 hi
        by_cases hi0 : i = mid0
        · subst hi0
          rw [saveMed, Function.update_same] at hi
          cases hi
          simp only
          omega
        · rw [saveMed, Function.update_noteq hi0] at hi
          exact hnn i m2 hi

/-- When every cart line has an identifier that exists in the working
catalog, the decrement pass can only fail at the concurrent re-check. -/
lemma decrementLoop_error_conflict (items : List CartItem) :
    ∀ σw e, (∀ item ∈ items, ∃ mid m, item.medicineId = some mid ∧ σw mid = some m) →
      decrementLoop σw items = Except.error e →
      ∃ n, e = OrderError.concurrentConflict n := by
  induction items with
  | nil => intro σw e _ h; exact Except.noConfusion h
  | cons item rest ih =>
    intro σw e hpres h
    obtain ⟨mid0, m, hid, hm⟩ := hpres item (List.mem_cons_self _ _)
    rw [decrementLoop] at h
    simp only [hid, hm] at h
    by_cases hlt : m.quantity < item.quantity
    · rw [if_pos hlt] at h
      exact ⟨m.name, (Except.error.injEq _ _).mp h.symm⟩
    rw [if_neg hlt] at h
    refine ih _ _ ?_ h
    intro it hit
    obtain ⟨mid1, m1, hid1, hm1⟩ := hpres it (List.mem_cons_of_mem _ hit)
    by_cases hsame : mid1 = mid0
    · subst hsame
      exact ⟨mid1, _, hid1, by rw [saveMed, Function.update_same]⟩
    · exact ⟨mid1, m1, hid1, by rw [saveMed, Function.update_noteq hsame]; exact hm1⟩

/-- A cart none of whose lines can trigger the immediate `InvalidInput`
aborts drives the first pass to completion, collecting exactly the
`lineIssues` messages. -/
lemma processItems_no_invalid (σ : Catalog) (now : ℤ) (items : List CartItem) :
    ∀ errs acc sub prof, (∀ item ∈ items, lineBasicOkB σ now item = true) →
      ∃ acc2 sub2 prof2,
        processItems σ now items errs acc sub prof =
          Except.ok (errs ++ lineIssues σ now items, acc2, sub2, prof2) := by
  induction items with
  | nil =>
    intro errs acc sub prof _
    exact ⟨acc, sub, prof, by simp [processItems, lineIssues]⟩
  | cons item rest ih =>
    intro errs acc sub prof hall
    have hhead := hall item (List.mem_cons_self _ _)
    have htail : ∀ it ∈ rest, lineBasicOkB σ now it = true :=
      fun it hit => hall it (List.mem_cons_of_mem _ hit)
    cases hid : item.medicineId with
    | none => simp [lineBasicOkB, hid] at hhead
    | some mid =>
      simp only [lineBasicOkB, hid] at hhead
      have hq : ¬ item.quantity ≤ 0 := by
        rw [Bool.and_eq_true] at hhead
        simpa using of_decide_eq_true hhead.1
      cases hm : σ mid with
      | none =>
        obtain ⟨acc2, sub2, prof2, hrec⟩ := ih (errs ++ [notFoundMsg mid]) acc sub prof htail
        refine ⟨acc2, sub2, prof2, ?_⟩
        rw [processItems]
        simp only [hid, hm, if_neg hq]
        rw [hrec, lineIssues]
        simp [hid, hm]
      | some m =>
        simp only [hm] at hhead
        by_cases hstock : m.quantity < item.quantity
        · obtain ⟨acc2, sub2, prof2, hrec⟩ := ih (errs ++ [shortMsg m item.quantity]) acc sub prof htail
          refine ⟨acc2, sub2, prof2, ?_⟩
          rw [processItems]
          simp only [hid, hm, if_neg hq, if_pos hstock]
          rw [hrec, lineIssues]
          simp [hid, hm, if_pos hstock]
        · by_cases hexp : expiredAtB m now = true
          · obtain ⟨acc2, sub2, prof2, hrec⟩ := ih (errs ++ [expiredMsg m]) acc sub prof htail
            refine ⟨acc2, sub2, prof2, ?_⟩
            rw [processItems]
            simp only [hid, hm, if_neg hq, if_neg hstock, hexp, if_true]
            rw [hrec, lineIssues]
            simp [hid, hm, if_neg hstock, hexp]
          · have hpr : ¬ (resolvedUnitPrice item m < 0 ∨ resolvedTradePrice item m < 0) ∧
                ¬ (resolvedDiscount item < 0 ∨ 100 < resolvedDiscount item) := by
              rw [if_neg hstock, if_neg hexp] at hhead
              simp only [Bool.and_eq_true, decide_eq_true_eq] at hhead
              obtain ⟨-, ⟨⟨h1a, h2⟩, h3⟩, h4⟩ := hhead
              constructor
              · push_neg
                exact ⟨h1a, h2⟩
              · push_neg
                exact ⟨h3, h4⟩
            obtain ⟨acc2, sub2, prof2, hrec⟩ := ih errs (acc ++ [detailOf mid item m])
              (sub + (lineCalcOf item m).total) (prof + (lineCalcOf item m).profit) htail
            refine ⟨acc2, sub2, prof2, ?_⟩
            rw [processItems]
            simp only [hid, hm, if_neg hq, if_neg hstock, if_neg hexp,
              if_neg hpr.1, if_neg hpr.2]
            rw [hrec, lineIssues]
            simp [hid, hm, if_neg hstock, if_neg hexp]

/-- An empty issue list means every line with an identifier found its
catalog entry sufficiently stocked and unexpired. -/
lemma lineIssues_nil_facts (σ : Catalog) (now : ℤ) (items : List CartItem) :
    lineIssues σ now items = [] →
    ∀ item ∈ items, ∀ mid, item.medicineId = some mid →
      ∃ m, σ mid = some m ∧ ¬ m.quantity < item.quantity ∧ expiredAtB m now = false := by
  induction items with
  | nil => intro _ item hmem; cases hmem
  | cons item rest ih =>
    intro h it hit mid hid
    have htl : lineIssues σ now rest = [] := by
      rw [lineIssues] at h
      cases hid1 : item.medicineId with
      | none => rwa [hid1] at h
      | some mid1 =>
        simp only [hid1] at h
        cases hm1 : σ mid1 with
        | none => simp only [hm1] at h; cases h
        | some m1 =>
          simp only [hm1] at h
          by_cases hs1 : m1.quantity < item.quantity
          · rw [if_pos hs1] at h; cases h
          rw [if_neg hs1] at h
          by_cases he1 : expiredAtB m1 now = true
          · rw [if_pos he1] at h; cases h
          rwa [if_neg he1] at h
    rcases List.mem_cons.mp hit with hhead | htail
    · subst hhead
      rw [lineIssues] at h
      simp only [hid] at h
      cases hm : σ mid with
      | none => simp only [hm] at h; cases h
      | some m =>
        simp only [hm] at h
        by_cases hstock : m.quantity < it.quantity
        · rw [if_pos hstock] at h; cases h
        rw [if_neg hstock] at h
        by_cases hexp : expiredAtB m now = true
        · rw [if_pos hexp] at h; cases h
        exact ⟨m, rfl, hstock, Bool.not_eq_true _ ▸ hexp⟩
    · exact ih htl it htail mid hid

/-- A clean prefix of the cart is consumed by the first pass without
collecting errors or aborting; processing continues on the remainder with
advanced accumulators. -/
lemma processItems_clean_app (σ : Catalog) (now : ℤ) (pre : List CartItem) :
    (∀ it ∈ pre, cleanLineB σ now it = true) →
    ∀ rest errs acc sub prof, ∃ acc2 sub2 prof2,
      processItems σ now (pre ++ rest) errs acc sub prof =
        processItems σ now rest errs acc2 sub2 prof2 := by
  induction pre with
  | nil => intro _ rest errs acc sub prof; exact ⟨acc, sub, prof, rfl⟩
  | cons item pre2 ih =>
    intro hall rest errs acc sub prof
    have hhead := hall item (List.mem_cons_self _ _)
    have htail : ∀ it ∈ pre2, cleanLineB σ now it = true :=
      fun it hit => hall it (List.mem_cons_of_mem _ hit)
    cases hid : item.medicineId with
    | none => simp [cleanLineB, hid] at hhead
    | some mid =>
      simp only [cleanLineB, hid] at hhead
      cases hm : σ mid with
      | none => simp [hm] at hhead
      | some m =>
        simp only [hm, Bool.and_eq_true, Bool.not_eq_true', decide_eq_true_eq,
          and_assoc] at hhead
        obtain ⟨hq, hstock, hexp, hu, ht, hd0, hd1⟩ := hhead
        have hprice : ¬ (resolvedUnitPrice item m < 0 ∨ resolvedTradePrice item m < 0) := by
          push_neg
          exact ⟨hu, ht⟩
        have hdisc : ¬ (resolvedDiscount item < 0 ∨ 100 < resolvedDiscount item) := by
          push_neg
          exact ⟨hd0, hd1⟩
        obtain ⟨acc2, sub2, prof2, hrec⟩ := ih htail rest errs (acc ++ [detailOf mid item m])
          (sub + (lineCalcOf item m).total) (prof + (lineCalcOf item m).profit)
        refine ⟨acc2, sub2, prof2, ?_⟩
        rw [List.cons_append, processItems]
        simp only [hid, hm, if_neg (not_le.mpr hq), if_neg (not_lt.mpr hstock), hexp,
          Bool.false_eq_true, if_false, if_neg hprice, if_neg hdisc]
        exact hrec

lemma applyItemUpdate_isSome (po : PurchaseOrder) (σw : Catalog) (u : ItemUpdate)
    (k : Nat) : ((applyItemUpdate po σw u) k).isSome = (σw k).isSome := by
  cases hf : po.items.find? (fun it => it.id == u.itemId) with
  | none => simp [applyItemUpdate, hf]
  | some it =>
    by_cases hr : 0 < u.receivedQuantity
    · cases hm : σw it.medicineId with
      | none => simp [applyItemUpdate, hf, hr, hm]
      | some m =>
        by_cases hk : k = it.medicineId
        · subst hk
          simp [applyItemUpdate, hf, hr, hm, saveMed, Function.update_same]
        · simp [applyItemUpdate, hf, hr, hm, saveMed, Function.update_noteq hk]
    · simp [applyItemUpdate, hf, hr]

lemma receiveLoop_isSome (po : PurchaseOrder) (updates : List ItemUpdate) :
    ∀ σw k, ((receiveLoop po σw updates) k).isSome = (σw k).isSome := by
  induction updates with
  | nil => intro σw k; rfl
  | cons u rest ih =>
    intro σw k
    rw [receiveLoop]
    rw [ih _ k, applyItemUpdate_isSome]

lemma receivedFor_nil (σ : Catalog) (po : PurchaseOrder) (mid : Nat) :
    receivedFor σ po [] mid = 0 := rfl

lemma receivedFor_cons (σ : Catalog) (po : PurchaseOrder) (u : ItemUpdate)
    (rest : List ItemUpdate) (mid : Nat) :
    receivedFor σ po (u :: rest) mid = updAmount σ po mid u + receivedFor σ po rest mid := by
  simp [receivedFor]

/-- The receiving loop adds, to every catalog entry, exactly the sum of the
matching positive received quantities. -/
lemma receiveLoop_quantity (σ : Catalog) (po : PurchaseOrder) (updates : List ItemUpdate) :
    ∀ σw, (∀ k, (σw k).isSome = (σ k).isSome) →
      ∀ mid, ((receiveLoop po σw updates) mid).map Medicine.quantity =
        (σw mid).map fun m => m.quantity + receivedFor σ po updates mid := by
  induction updates with
  | nil =>
    intro σw _ mid
    cases h : σw mid <;> simp [receiveLoop, receivedFor_nil, h]
  | cons u rest ih =>
    intro σw hdom mid
    rw [receiveLoop]
    have hdom2 : ∀ k, ((applyItemUpdate po σw u) k).isSome = (σ k).isSome :=
      fun k => (applyItemUpdate_isSome po σw u k).trans (hdom k)
    rw [ih _ hdom2 mid, receivedFor_cons]
    cases hf : po.items.find? (fun it => it.id == u.itemId) with
    | none =>
      simp only [applyItemUpdate, updAmount, hf]
      cases h : σw mid <;> simp [h]
    | some it =>
      by_cases hr : 0 < u.receivedQuantity
      · cases hm : σw it.medicineId with
        | none =>
          have hdead : ¬ ((σ it.medicineId).isSome = true) := by
            rw [← hdom it.medicineId, hm]
            simp
          simp only [applyItemUpdate, updAmount, hf, if_pos hr, hm]
          have hcond : ¬ (it.medicineId = mid ∧ 0 < u.receivedQuantity ∧
              (σ it.medicineId).isSome = true) := fun hc => hdead hc.2.2
          rw [if_neg hcond]
          cases h : σw mid <;> simp [h]
        | some m =>
          have hlive : (σ it.medicineId).isSome = true := by
            rw [← hdom it.medicineId, hm]
            rfl
          by_cases hk : mid = it.medicineId
          · subst hk
            simp only [applyItemUpdate, updAmount, hf, if_pos hr, hm, saveMed,
              Function.update_same]
            simp [hr, hlive]
            try omega
          · have hcond : ¬ (it.medicineId = mid ∧ 0 < u.receivedQuantity ∧
                (σ it.medicineId).isSome = true) := fun hc => hk hc.1.symm
            simp only [applyItemUpdate, updAmount, hf, if_pos hr, hm, saveMed,
              Function.update_noteq hk]
            rw [if_neg hcond]
            cases h : σw mid <;> simp [h]
      · have hcond : ¬ (it.medicineId = mid ∧ 0 < u.receivedQuantity ∧
            (σ it.medicineId).isSome = true) := fun hc => hr hc.2.1
        simp only [applyItemUpdate, updAmount, hf, if_neg hr]
        rw [if_neg hcond]
        cases h : σw mid <;> simp [h]

/-- Success inversion for `createOrder`: a committed order comes from a
clean first pass, a successful decrement pass, and `mkOrder`. -/
lemma createOrder_ok_inv (σ : Catalog) (now : ℤ) (req : OrderRequest) (o : Order)
    (σ2 : Catalog) (h : createOrder σ now req = Except.ok (o, σ2)) :
    ∃ details sub prof,
      processItems σ now req.items [] [] 0 0 = Except.ok ([], details, sub, prof) ∧
      decrementLoop σ req.items = Except.ok σ2 ∧ o = mkOrder req details sub prof := by
  unfold createOrder at h
  by_cases he : req.items.isEmpty
  · rw [if_pos he] at h
    exact Except.noConfusion h
  rw [if_neg he] at h
  cases hp : processItems σ now req.items [] [] 0 0 with
  | error e => rw [hp] at h; exact Except.noConfusion h
  | ok r =>
    obtain ⟨errs, details, sub, prof⟩ := r
    rw [hp] at h
    by_cases herrs : errs.isEmpty
    · simp only [herrs, if_true] at h
      cases hd : decrementLoop σ req.items with
      | error e => rw [hd] at h; exact Except.noConfusion h
      | ok σ3 =>
        rw [hd] at h
        simp only [Except.ok.injEq, Prod.mk.injEq] at h
        obtain ⟨ho, hσ⟩ := h
        have hnil : errs = [] := List.isEmpty_iff.mp herrs
        subst hnil
        subst hσ
        exact ⟨details, sub, prof, rfl, rfl, ho.symm⟩
    · simp only [herrs, if_false] at h
      exact Except.noConfusion h

/-! ### Concrete inputs for claim C1 -/

/-- Medicine A as stocked in the catalog for the C1 example (its catalog
prices differ from the supplied ones, so the example exercises the
supplied-price path). -/
def c1Med : Medicine :=
  { name := "A", manufacturer := "M", batchNumber := none, retailPrice := 50,
    tradePrice := 40, gstPerUnit := 7, quantity := 10, expiryDate := some 1000 }

def c1Cat : Catalog := ofList [(1, c1Med)]

/-- The spec example cart line: qty 2, unitPrice 100, tradePrice 60,
discountPercent 10, gstPerUnit 5. -/
def c1Line : CartItem :=
  { medicineId := some 1, quantity := 2, unitPrice := some 100, tradePrice := some 60,
    discountPercent := some 10, gstPerUnit := some 5 }

def c1Req : OrderRequest :=
  { items := [c1Line], customer := none, payment := none, totals := none, status := none }

/-- Claim C1: for every cart line accepted by `createOrder` with resolved
unit price `u`, trade price `t`, discount percent `dPct`, GST per unit `g`
and quantity `q`, the computed values satisfy `lineSubtotal = u*q`,
`discountAmount = lineSubtotal*dPct/100`, `afterDiscount = lineSubtotal -
discountAmount`, `gstAmount = g*q`, `lineTotal = afterDiscount + gstAmount`,
`profitPerUnit = max(0, u - discountAmount/q - t)`, `lineProfit =
profitPerUnit*q`; in particular the cart line (qty 2, unitPrice 100,
tradePrice 60, discountPercent 10, gstPerUnit 5) yields lineSubtotal 200,
discountAmount 20, gstAmount 10, lineTotal 190, lineProfit 60, and that is
exactly the line-item snapshot `createOrder` persists for it. -/
theorem createOrder_line_calculation :
    (∀ u t dPct g : ℚ, ∀ q : ℤ,
      (computeLine u t dPct g q).lineSubtotal = u * (q : ℚ) ∧
      (computeLine u t dPct g q).discountAmount =
        (computeLine u t dPct g q).lineSubtotal * dPct / 100 ∧
      (computeLine u t dPct g q).afterDiscount =
        (computeLine u t dPct g q).lineSubtotal - (computeLine u t dPct g q).discountAmount ∧
      (computeLine u t dPct g q).gstAmount = g * (q : ℚ) ∧
      (computeLine u t dPct g q).total =
        (computeLine u t dPct g q).afterDiscount + (computeLine u t dPct g q).gstAmount ∧
      (computeLine u t dPct g q).profitPerUnit =
        max 0 (u - (computeLine u t dPct g q).discountAmount / (q : ℚ) - t) ∧
      (computeLine u t dPct g q).profit =
        (computeLine u t dPct g q).profitPerUnit * (q : ℚ)) ∧
    computeLine 100 60 10 5 2 =
      { lineSubtotal := 200, discountAmount := 20, afterDiscount := 180, gstAmount := 10,
        total := 190, profitPerUnit := 30, profit := 60 } ∧
    (runCreateOrder c1Cat 5 c1Req).1.map Order.items =
      some [{ medicineId := 1, name := "A", manufacturer := "M", quantity := 2,
              retailPrice := 100, tradePrice := 60, discount := 10, discountAmount := 20,
              totalPrice := 190, profit := 60 }] := by
  refine ⟨fun u t dPct g q => ⟨rfl, rfl, rfl, rfl, rfl, rfl, rfl⟩, ?_, ?_⟩
  · norm_num [computeLine]
  · norm_num [runCreateOrder, createOrder, processItems, detailOf, lineCalcOf, computeLine,
      resolvedUnitPrice, resolvedTradePrice, resolvedDiscount, resolvedGst, jsOr, jsOrStr,
      mkOrder, decrementLoop, saveMed, ofList, c1Cat, c1Req, c1Line, c1Med, expiredAtB,
      List.find?, Function.update]
    all_goals decide

/-! ### Concrete inputs for claim C3 -/

def c3Cat : Catalog := ofList [(1, c1Med)]

/-- An empty cart, rejected at the very first validation. -/
def c3Req : OrderRequest :=
  { items := [], customer := none, payment := none, totals := none, status := none }

/-- Claim C3: whenever `createOrder` fails, at whatever step, the catalog is
left exactly as it was and no order is persisted — the transaction aborts
as a whole. -/
theorem createOrder_failure_no_mutation (σ : Catalog) (now : ℤ) (req : OrderRequest)
    (e : OrderError) (h : createOrder σ now req = Except.error e) :
    runCreateOrder σ now req = (none, σ) := by
  unfold runCreateOrder
  rw [h]

theorem createOrder_failure_no_mutation_witness :
    runCreateOrder c3Cat 0 c3Req = (none, c3Cat) :=
  createOrder_failure_no_mutation c3Cat 0 c3Req OrderError.emptyItems rfl

/-! ### Concrete inputs for claims C7 and C8 -/

def c7Med : Medicine :=
  { name := "P", manufacturer := "M", batchNumber := none, retailPrice := 10,
    tradePrice := 5, gstPerUnit := 0, quantity := 10, expiryDate := none }

def c7Cat : Catalog := ofList [(7, c7Med)]

def c7PO : PurchaseOrder :=
  { id := 40, status := "pending", items := [{ id := 7, medicineId := 7 }] }

def c7Pos : POStore := poOfList [(40, c7PO)]

def c7Upd : List ItemUpdate :=
  [{ itemId := 7, receivedQuantity := 5, batchNumber := none, expiryDate := none }]

/-- Claim C7: receiving an existing purchase order whose status is neither
`received` nor `cancelled` increments, for every catalog entry, the catalog
quantity by the summed matching positive received quantities, and leaves the
purchase order with status `received`; in particular receiving 5 units into
an entry holding 10 leaves 15 and status `received`.  (The status transition
is performed by the model method `receiveItems`, modelled from the spec.) -/
theorem receivePurchaseOrder_increments_and_receives :
    (∀ (σ : Catalog) (pos : POStore) (poId : Nat) (updates : List ItemUpdate)
       (po : PurchaseOrder), pos poId = some po →
       po.status ≠ "received" → po.status ≠ "cancelled" →
       ∃ σ2 po2, receivePurchaseOrder σ pos poId updates = Except.ok (σ2, po2) ∧
         po2.status = "received" ∧
         ∀ mid, (σ2 mid).map Medicine.quantity =
           (σ mid).map fun m => m.quantity + receivedFor σ po updates mid) ∧
    ((runReceive c7Cat c7Pos 40 c7Upd).1 7).map Medicine.quantity = some 15 ∧
    (receivePurchaseOrder c7Cat c7Pos 40 c7Upd).toOption.map (fun r => r.2.status) =
      some "received" := by
  refine ⟨?_, by decide, by decide⟩
  intro σ pos poId updates po hpo h1 h2
  refine ⟨receiveLoop po σ updates, receiveItems po, ?_, rfl, ?_⟩
  · unfold receivePurchaseOrder
    simp only [hpo]
    rw [if_neg (by push_neg; exact ⟨h1, h2⟩ :
      ¬ (po.status = "received" ∨ po.status = "cancelled"))]
  · exact receiveLoop_quantity σ po updates σ (fun k => rfl)

theorem receivePurchaseOrder_increments_and_receives_witness :
    ∃ σ2 po2, receivePurchaseOrder c7Cat c7Pos 40 c7Upd = Except.ok (σ2, po2) ∧
      po2.status = "received" ∧
      ∀ mid, (σ2 mid).map Medicine.quantity =
        (c7Cat mid).map fun m => m.quantity + receivedFor c7Cat c7PO c7Upd mid :=
  receivePurchaseOrder_increments_and_receives.1 c7Cat c7Pos 40 c7Upd c7PO rfl
    (by decide) (by decide)

def c8PO : PurchaseOrder := { id := 41, status := "received", items := [] }

def c8Pos : POStore := poOfList [(41, c8PO)]

def c8Empty : POStore := poOfList []

/-- Claim C8: `receivePurchaseOrder` fails with `NotFound` when no purchase
order with the identifier exists and with `InvalidState` when its status is
already `received` or `cancelled`; in both cases the catalog and the
purchase-order store are left unchanged. -/
theorem receivePurchaseOrder_guards (σ : Catalog) (pos : POStore) (poId : Nat)
    (updates : List ItemUpdate) :
    (pos poId = none →
      receivePurchaseOrder σ pos poId updates = Except.error ReceiveError.notFound ∧
      runReceive σ pos poId updates = (σ, pos)) ∧
    (∀ po, pos poId = some po →
      po.status = "received" ∨ po.status = "cancelled" →
      receivePurchaseOrder σ pos poId updates = Except.error ReceiveError.invalidState ∧
      runReceive σ pos poId updates = (σ, pos)) := by
  constructor
  · intro h
    have h1 : receivePurchaseOrder σ pos poId updates = Except.error ReceiveError.notFound := by
      unfold receivePurchaseOrder
      simp only [h]
    exact ⟨h1, by unfold runReceive; rw [h1]⟩
  · intro po hpo hst
    have h1 : receivePurchaseOrder σ pos poId updates = Except.error ReceiveError.invalidState := by
      unfold receivePurchaseOrder
      simp only [hpo]
      rw [if_pos hst]
    exact ⟨h1, by unfold runReceive; rw [h1]⟩

theorem receivePurchaseOrder_guards_witness :
    (receivePurchaseOrder c7Cat c8Empty 9 [] = Except.error ReceiveError.notFound ∧
     runReceive c7Cat c8Empty 9 [] = (c7Cat, c8Empty)) ∧
    (receivePurchaseOrder c7Cat c8Pos 41 [] = Except.error ReceiveError.invalidState ∧
     runReceive c7Cat c8Pos 41 [] = (c7Cat, c8Pos)) :=
  ⟨(receivePurchaseOrder_guards c7Cat c8Empty 9 []).1 rfl,
   (receivePurchaseOrder_guards c7Cat c8Pos 41 []).2 c8PO rfl (Or.inl rfl)⟩

/-- Claim C4: for every successfully created order, each catalog entry ends
with its pre-order quantity minus the total quantity the cart ordered for
it (entries the cart does not reference lose 0), and no entry's quantity is
negative afterwards. -/
theorem createOrder_stock_decrement (σ : Catalog) (now : ℤ) (req : OrderRequest)
    (o : Order) (σ2 : Catalog) (hwf : CatalogWF σ)
    (hok : createOrder σ now req = Except.ok (o, σ2)) :
    (∀ mid, (σ2 mid).map Medicine.quantity =
       (σ mid).map fun m => m.quantity - totalOrdered req.items mid) ∧
    (∀ mid m, σ2 mid = some m → 0 ≤ m.quantity) := by
  obtain ⟨details, sub, prof, hp, hd, ho⟩ := createOrder_ok_inv σ now req o σ2 hok
  exact ⟨decrementLoop_quantity req.items σ σ2 hd,
    decrementLoop_nonneg req.items σ σ2 (fun i m h => (hwf i m h).2) hd⟩

/-! ### Concrete inputs for claim C4: two lines on the same entry, 2 + 3
units out of 10 in stock. -/

def c4Med : Medicine :=
  { name := "A", manufacturer := "M", batchNumber := none, retailPrice := 10,
    tradePrice := 5, gstPerUnit := 0, quantity := 10, expiryDate := none }

def c4Cat : Catalog := ofList [(1, c4Med)]

def c4L1 : CartItem :=
  { medicineId := some 1, quantity := 2, unitPrice := none, tradePrice := none,
    discountPercent := none, gstPerUnit := none }

def c4L2 : CartItem :=
  { medicineId := some 1, quantity := 3, unitPrice := none, tradePrice := none,
    discountPercent := none, gstPerUnit := none }

def c4Req : OrderRequest :=
  { items := [c4L1, c4L2], customer := none, payment := none, totals := none, status := none }

def c4Out : Order × Catalog := (createOrder c4Cat 0 c4Req).toOption.getD default

theorem createOrder_stock_decrement_witness :
    (∀ mid, (c4Out.2 mid).map Medicine.quantity =
       (c4Cat mid).map fun m => m.quantity - totalOrdered c4Req.items mid) ∧
    (∀ mid m, c4Out.2 mid = some m → 0 ≤ m.quantity) :=
  createOrder_stock_decrement c4Cat 0 c4Req c4Out.1 c4Out.2
    (ofList_wf _ (by
      intro p hp
      simp only [List.mem_singleton] at hp
      subst hp
      exact ⟨by norm_num [c4Med], by norm_num [c4Med]⟩))
    rfl

lemma jsOr_none (d : ℚ) : jsOr none d = d := rfl

/-- The persisted fields of `mkOrder`, spelled out. -/
lemma mkOrder_fields (req : OrderRequest) (details : List OrderItemDetail) (sub prof : ℚ) :
    (mkOrder req details sub prof).items = details ∧
    (mkOrder req details sub prof).subtotal =
      max 0 (jsOr (req.totals.bind Totals.subtotal) sub) ∧
    (mkOrder req details sub prof).taxPercent =
      max 0 (jsOr (req.payment.bind Payment.taxPercent) 0) ∧
    (mkOrder req details sub prof).taxAmount =
      max 0 (jsOr (req.totals.bind Totals.taxAmount)
        (jsOr (req.totals.bind Totals.subtotal) sub *
          jsOr (req.payment.bind Payment.taxPercent) 0 / 100)) ∧
    (mkOrder req details sub prof).discountAmount =
      max 0 (jsOr (req.payment.bind Payment.globalDiscount) 0) ∧
    (mkOrder req details sub prof).total =
      max 0 (jsOr (req.totals.bind Totals.grandTotal)
        (jsOr (req.totals.bind Totals.subtotal) sub +
         jsOr (req.totals.bind Totals.taxAmount)
           (jsOr (req.totals.bind Totals.subtotal) sub *
             jsOr (req.payment.bind Payment.taxPercent) 0 / 100) -
         jsOr (req.payment.bind Payment.globalDiscount) 0)) ∧
    (mkOrder req details sub prof).profit = max 0 prof :=
  ⟨rfl, rfl, rfl, rfl, rfl, rfl, rfl⟩

/-- Claim C2 (amended): for every successfully created order where the
caller supplies no `totals` descriptor and every caller-supplied GST,
tax-percent and global-discount value is nonnegative, the persisted
subtotal equals the sum of the line totals, the persisted grand total
equals `max 0 (subtotal + taxAmount - discountAmount)`, and every persisted
monetary field is nonnegative. -/
theorem createOrder_totals_no_caller_totals (σ : Catalog) (now : ℤ) (req : OrderRequest)
    (o : Order) (σ2 : Catalog) (hwf : CatalogWF σ)
    (hnt : req.totals = none)
    (hgst : ∀ item ∈ req.items, ∀ v, item.gstPerUnit = some v → 0 ≤ v)
    (hpay : ∀ p, req.payment = some p →
      (∀ v, p.taxPercent = some v → 0 ≤ v) ∧ (∀ v, p.globalDiscount = some v → 0 ≤ v))
    (hok : createOrder σ now req = Except.ok (o, σ2)) :
    o.subtotal = (o.items.map OrderItemDetail.totalPrice).sum ∧
    o.total = max 0 (o.subtotal + o.taxAmount - o.discountAmount) ∧
    0 ≤ o.subtotal ∧ 0 ≤ o.taxPercent ∧ 0 ≤ o.taxAmount ∧ 0 ≤ o.discountAmount ∧
    0 ≤ o.total ∧ 0 ≤ o.profit := by
  obtain ⟨details, sub, prof, hp, hdec, ho⟩ := createOrder_ok_inv σ now req o σ2 hok
  obtain ⟨L, haccL, hsubL, hmem⟩ :=
    processItems_ok_inv σ now req.items [] [] 0 0 [] details sub prof hp
  have hdet : details = L := by simpa using haccL
  have hsub : sub = (L.map OrderItemDetail.totalPrice).sum := by simpa using hsubL
  have hsub_nonneg : 0 ≤ sub := by
    rw [hsub]
    apply List.sum_nonneg
    intro x hx
    obtain ⟨d, hdL, hdx⟩ := List.mem_map.mp hx
    obtain ⟨item, mid, m, hitem, hid, hm, hq, hu, ht, h0, h1, hdd⟩ := hmem d hdL
    rw [← hdx, hdd]
    refine detailOf_totalPrice_nonneg mid item m hq hu h0 h1 ?_
    exact resolvedGst_nonneg item m (hwf mid m hm).1 (fun v hv => hgst item hitem v hv)
  have htp_nonneg : 0 ≤ jsOr (req.payment.bind Payment.taxPercent) 0 := by
    refine jsOr_nonneg ?_ le_rfl
    intro v hv
    obtain ⟨p, hp1, hp2⟩ := Option.bind_eq_some.mp hv
    exact (hpay p hp1).1 v hp2
  have hgd_nonneg : 0 ≤ jsOr (req.payment.bind Payment.globalDiscount) 0 := by
    refine jsOr_nonneg ?_ le_rfl
    intro v hv
    obtain ⟨p, hp1, hp2⟩ := Option.bind_eq_some.mp hv
    exact (hpay p hp1).2 v hp2
  have htax_nonneg : 0 ≤ sub * jsOr (req.payment.bind Payment.taxPercent) 0 / 100 :=
    div_nonneg (mul_nonneg hsub_nonneg htp_nonneg) (by norm_num)
  have hb1 : req.totals.bind Totals.subtotal = none := by rw [hnt]; rfl
  have hb2 : req.totals.bind Totals.taxAmount = none := by rw [hnt]; rfl
  have hb3 : req.totals.bind Totals.grandTotal = none := by rw [hnt]; rfl
  obtain ⟨f1, f2, f3, f4, f5, f6, f7⟩ := mkOrder_fields req details sub prof
  simp only [hb1, hb2, hb3, jsOr_none] at f2 f4 f6
  subst ho
  have hA : (mkOrder req details sub prof).subtotal = sub := by
    rw [f2, max_eq_right hsub_nonneg]
  have hB : (mkOrder req details sub prof).taxAmount =
      sub * jsOr (req.payment.bind Payment.taxPercent) 0 / 100 := by
    rw [f4, max_eq_right htax_nonneg]
  have hC : (mkOrder req details sub prof).discountAmount =
      jsOr (req.payment.bind Payment.globalDiscount) 0 := by
    rw [f5, max_eq_right hgd_nonneg]
  refine ⟨?_, ?_, ?_, ?_, ?_, ?_, ?_, ?_⟩
  · rw [hA, f1, hdet, hsub]
  · rw [f6, hA, hB, hC]
  · rw [hA]
    exact hsub_nonneg
  · rw [f3]
    exact le_max_left _ _
  · rw [f4]
    exact le_max_left _ _
  · rw [f5]
    exact le_max_left _ _
  · rw [f6]
    exact le_max_left _ _
  · rw [f7]
    exact le_max_left _ _

/-! ### Concrete inputs for claim C2 -/

def c2aReq : OrderRequest :=
  { items := [c1Line], customer := none, payment := none,
    totals := some { subtotal := some 999, taxAmount := none, grandTotal := none },
    status := none }

def c2bLine : CartItem :=
  { medicineId := some 1, quantity := 1, unitPrice := some 100, tradePrice := some 60,
    discountPercent := none, gstPerUnit := some (-200) }

def c2bReq : OrderRequest :=
  { items := [c2bLine], customer := none, payment := none, totals := none, status := none }

/-- Counterexample to claim C2 as stated: (a) a caller-supplied
`totals.subtotal` of 999 is persisted verbatim while the line totals sum to
190; (b) with no caller totals but a negative supplied GST, the clamped
persisted subtotal 0 differs from the line-total sum -100. -/
theorem createOrder_subtotal_not_line_sum :
    (runCreateOrder c1Cat 5 c2aReq).1.map Order.subtotal = some 999 ∧
    (runCreateOrder c1Cat 5 c2aReq).1.map
      (fun o => (o.items.map OrderItemDetail.totalPrice).sum) = some 190 ∧
    (999 : ℚ) ≠ 190 ∧
    (runCreateOrder c1Cat 5 c2bReq).1.map Order.subtotal = some 0 ∧
    (runCreateOrder c1Cat 5 c2bReq).1.map
      (fun o => (o.items.map OrderItemDetail.totalPrice).sum) = some (-100) ∧
    (0 : ℚ) ≠ -100 := by
  refine ⟨?_, ?_, by norm_num, ?_, ?_, by norm_num⟩ <;>
  · norm_num [runCreateOrder, createOrder, processItems, detailOf, lineCalcOf, computeLine,
      resolvedUnitPrice, resolvedTradePrice, resolvedDiscount, resolvedGst, jsOr, jsOrStr,
      mkOrder, decrementLoop, saveMed, ofList, c1Cat, c2aReq, c2bReq, c1Line, c2bLine,
      c1Med, expiredAtB, List.find?, Function.update]

def c2wPay : Payment :=
  { taxPercent := some 10, globalDiscount := some 5, method := none }

def c2wReq : OrderRequest :=
  { items := [c1Line], customer := none, payment := some c2wPay, totals := none,
    status := none }

def c2wOut : Order × Catalog := (createOrder c1Cat 5 c2wReq).toOption.getD default

theorem createOrder_totals_no_caller_totals_witness :
    c2wOut.1.subtotal = (c2wOut.1.items.map OrderItemDetail.totalPrice).sum ∧
    c2wOut.1.total = max 0 (c2wOut.1.subtotal + c2wOut.1.taxAmount - c2wOut.1.discountAmount) ∧
    0 ≤ c2wOut.1.subtotal ∧ 0 ≤ c2wOut.1.taxPercent ∧ 0 ≤ c2wOut.1.taxAmount ∧
    0 ≤ c2wOut.1.discountAmount ∧ 0 ≤ c2wOut.1.total ∧ 0 ≤ c2wOut.1.profit :=
  createOrder_totals_no_caller_totals c1Cat 5 c2wReq c2wOut.1 c2wOut.2
    (ofList_wf _ (by
      intro p hp
      simp only [List.mem_singleton] at hp
      subst hp
      exact ⟨by norm_num [c1Med], by norm_num [c1Med]⟩))
    rfl
    (by
      intro item hit v hv
      simp only [c2wReq, List.mem_singleton] at hit
      subst hit
      rw [show c1Line.gstPerUnit = some 5 from rfl] at hv
      cases hv
      norm_num)
    (by
      intro p hp
      rw [show c2wReq.payment = some c2wPay from rfl] at hp
      cases hp
      constructor
      · intro v hv
        rw [show c2wPay.taxPercent = some 10 from rfl] at hv
        cases hv
        norm_num
      · intro v hv
        rw [show c2wPay.globalDiscount = some 5 from rfl] at hv
        cases hv
        norm_num)
    rfl

/-! ### Concrete inputs for claim C5 -/

def c5Med : Medicine :=
  { name := "B", manufacturer := "M", batchNumber := none, retailPrice := 50,
    tradePrice := 30, gstPerUnit := 0, quantity := 10, expiryDate := none }

def c5Cat : Catalog := ofList [(2, c5Med)]

def c5L1 : CartItem :=
  { medicineId := some 99, quantity := 1, unitPrice := none, tradePrice := none,
    discountPercent := none, gstPerUnit := none }

def c5L2 : CartItem :=
  { medicineId := some 2, quantity := 1, unitPrice := some (-5), tradePrice := none,
    discountPercent := none, gstPerUnit := none }

def c5Req : OrderRequest :=
  { items := [c5L1, c5L2], customer := none, payment := none, totals := none, status := none }

/-- Counterexample to claim C5 as stated: a cart whose first line references
a missing catalog entry and whose second line carries a negative supplied
unit price fails with the immediate `InvalidInput` price abort, not with
`InsufficientInventory`, although an offending (missing-entry) line is
present. -/
theorem createOrder_mixed_errors_invalid_input :
    createOrder c5Cat 0 c5Req = Except.error (OrderError.invalidPrice "B") ∧
    c5Cat 99 = none ∧
    (∃ it ∈ c5Req.items, it.medicineId = some 99) ∧
    ∀ errs, createOrder c5Cat 0 c5Req ≠
      Except.error (OrderError.insufficientInventory errs) := by
  have h1 : createOrder c5Cat 0 c5Req = Except.error (OrderError.invalidPrice "B") := by
    rfl
  refine ⟨h1, rfl, ⟨c5L1, by simp [c5Req], rfl⟩, ?_⟩
  intro errs hc
  rw [h1] at hc
  simp at hc

/-- Claim C5 (amended): provided no cart line can trigger the immediate
`InvalidInput` abort (malformed line, negative resolved price, out-of-range
discount), a cart with at least one missing / short-stocked / expired line
makes `createOrder` collect one message per offending line, abort without
touching the catalog, and fail with `InsufficientInventory` carrying the
full message list. -/
theorem createOrder_reports_all_inventory_errors (σ : Catalog) (now : ℤ)
    (req : OrderRequest)
    (hbasic : ∀ item ∈ req.items, lineBasicOkB σ now item = true)
    (hissues : lineIssues σ now req.items ≠ []) :
    createOrder σ now req = Except.error
      (OrderError.insufficientInventory (lineIssues σ now req.items)) ∧
    runCreateOrder σ now req = (none, σ) := by
  have hne : ¬ req.items.isEmpty = true := by
    intro hc
    rw [List.isEmpty_iff.mp hc] at hissues
    exact hissues rfl
  obtain ⟨acc2, sub2, prof2, hp⟩ := processItems_no_invalid σ now req.items [] [] 0 0 hbasic
  have h1 : createOrder σ now req = Except.error
      (OrderError.insufficientInventory (lineIssues σ now req.items)) := by
    unfold createOrder
    rw [if_neg hne]
    simp only [hp, List.nil_append]
    rw [if_neg (fun hc => hissues (List.isEmpty_iff.mp hc) :
      ¬ (lineIssues σ now req.items).isEmpty = true)]
  exact ⟨h1, by unfold runCreateOrder; rw [h1]⟩

def c5wMed : Medicine :=
  { name := "A", manufacturer := "M", batchNumber := none, retailPrice := 10,
    tradePrice := 5, gstPerUnit := 0, quantity := 1, expiryDate := none }

def c5wCat : Catalog := ofList [(1, c5wMed)]

def c5wL1 : CartItem :=
  { medicineId := some 99, quantity := 1, unitPrice := none, tradePrice := none,
    discountPercent := none, gstPerUnit := none }

def c5wL2 : CartItem :=
  { medicineId := some 1, quantity := 5, unitPrice := none, tradePrice := none,
    discountPercent := none, gstPerUnit := none }

def c5wReq : OrderRequest :=
  { items := [c5wL1, c5wL2], customer := none, payment := none, totals := none,
    status := none }

theorem createOrder_reports_all_inventory_errors_witness :
    createOrder c5wCat 0 c5wReq = Except.error
      (OrderError.insufficientInventory (lineIssues c5wCat 0 c5wReq.items)) ∧
    runCreateOrder c5wCat 0 c5wReq = (none, c5wCat) :=
  createOrder_reports_all_inventory_errors c5wCat 0 c5wReq (by decide) (by decide)

/-- Claim C6 (amended): (1) every persisted line item of a successful order
carries `unitPrice-or-catalog-retail` and `tradePrice-or-catalog-trade`
resolved prices, where the JS truthy fallback treats a supplied 0 as
absent; (2) a line that passes the inventory checks but resolves a negative
unit or trade price (the first such line, after a prefix of fully clean
lines) makes the whole operation fail with `InvalidInput` and leaves the
catalog untouched. -/
theorem createOrder_price_resolution :
    (∀ (σ : Catalog) (now : ℤ) (req : OrderRequest) (o : Order) (σ2 : Catalog),
      createOrder σ now req = Except.ok (o, σ2) →
      ∀ d ∈ o.items, ∃ item mid m, item ∈ req.items ∧ item.medicineId = some mid ∧
        σ mid = some m ∧ d.retailPrice = jsOr item.unitPrice m.retailPrice ∧
        d.tradePrice = jsOr item.tradePrice m.tradePrice) ∧
    (∀ (σ : Catalog) (now : ℤ) (req : OrderRequest) (pre : List CartItem)
      (bad : CartItem) (rest : List CartItem) (mid : Nat) (m : Medicine),
      req.items = pre ++ bad :: rest →
      (∀ it ∈ pre, cleanLineB σ now it = true) →
      bad.medicineId = some mid → 0 < bad.quantity → σ mid = some m →
      bad.quantity ≤ m.quantity → expiredAtB m now = false →
      (jsOr bad.unitPrice m.retailPrice < 0 ∨ jsOr bad.tradePrice m.tradePrice < 0) →
      createOrder σ now req = Except.error (OrderError.invalidPrice m.name) ∧
      runCreateOrder σ now req = (none, σ)) := by
  constructor
  · intro σ now req o σ2 hok d hd
    obtain ⟨details, sub, prof, hp, hdec, ho⟩ := createOrder_ok_inv σ now req o σ2 hok
    obtain ⟨L, haccL, hsubL, hmem⟩ :=
      processItems_ok_inv σ now req.items [] [] 0 0 [] details sub prof hp
    have hdet : details = L := by simpa using haccL
    have hitems : o.items = L := by
      rw [ho]
      exact hdet
    rw [hitems] at hd
    obtain ⟨item, mid, m, hitem, hid, hm, hq, hu, ht, h0, h1, hdd⟩ := hmem d hd
    exact ⟨item, mid, m, hitem, hid, hm, by rw [hdd]; rfl, by rw [hdd]; rfl⟩
  · intro σ now req pre bad rest mid m hsplit hclean hid hq hm hstock hexp hneg
    obtain ⟨acc2, sub2, prof2, hskip⟩ :=
      processItems_clean_app σ now pre hclean (bad :: rest) [] [] 0 0
    have hbadstep : processItems σ now (bad :: rest) [] acc2 sub2 prof2 =
        Except.error (OrderError.invalidPrice m.name) := by
      rw [processItems]
      simp only [hid, hm, if_neg (not_le.mpr hq), if_neg (not_lt.mpr hstock), hexp,
        Bool.false_eq_true, if_false]
      rw [if_pos (by
        rcases hneg with h | h
        · exact Or.inl h
        · exact Or.inr h :
        resolvedUnitPrice bad m < 0 ∨ resolvedTradePrice bad m < 0)]
    have h1 : createOrder σ now req = Except.error (OrderError.invalidPrice m.name) := by
      unfold createOrder
      rw [hsplit]
      have hne : ¬ (pre ++ bad :: rest).isEmpty = true := by simp
      rw [if_neg hne, hskip]
      simp only [hbadstep]
    exact ⟨h1, by unfold runCreateOrder; rw [h1]⟩

/-! ### Concrete inputs for claim C6 -/

def c6Med : Medicine :=
  { name := "C", manufacturer := "M", batchNumber := none, retailPrice := 50,
    tradePrice := 30, gstPerUnit := 0, quantity := 10, expiryDate := none }

def c6Cat : Catalog := ofList [(3, c6Med)]

def c6Line : CartItem :=
  { medicineId := some 3, quantity := 1, unitPrice := some 0, tradePrice := none,
    discountPercent := none, gstPerUnit := none }

def c6Req : OrderRequest :=
  { items := [c6Line], customer := none, payment := none, totals := none, status := none }

/-- Counterexample to claim C6 as stated: a supplied `unitPrice` of 0 is
falsy in JS, so the catalog retail price 50 is used instead of the supplied
value. -/
theorem createOrder_zero_price_falls_back :
    c6Req.items.map CartItem.unitPrice = [some 0] ∧
    (runCreateOrder c6Cat 0 c6Req).1.map (fun o => o.items.map OrderItemDetail.retailPrice) =
      some [50] ∧
    (50 : ℚ) ≠ 0 := by
  refine ⟨rfl, ?_, by norm_num⟩
  norm_num [runCreateOrder, createOrder, processItems, detailOf, lineCalcOf, computeLine,
    resolvedUnitPrice, resolvedTradePrice, resolvedDiscount, resolvedGst, jsOr, jsOrStr,
    mkOrder, decrementLoop, saveMed, ofList, c6Cat, c6Req, c6Line, c6Med, expiredAtB,
    List.find?, Function.update]

def c6wOut : Order × Catalog := (createOrder c6Cat 0 c6Req).toOption.getD default

def c6BadLine : CartItem :=
  { medicineId := some 3, quantity := 1, unitPrice := some (-5), tradePrice := none,
    discountPercent := none, gstPerUnit := none }

def c6BadReq : OrderRequest :=
  { items := [c6BadLine], customer := none, payment := none, totals := none,
    status := none }

theorem createOrder_price_resolution_witness :
    (∀ d ∈ c6wOut.1.items, ∃ item mid m, item ∈ c6Req.items ∧
      item.medicineId = some mid ∧ c6Cat mid = some m ∧
      d.retailPrice = jsOr item.unitPrice m.retailPrice ∧
      d.tradePrice = jsOr item.tradePrice m.tradePrice) ∧
    (createOrder c6Cat 0 c6BadReq = Except.error (OrderError.invalidPrice "C") ∧
     runCreateOrder c6Cat 0 c6BadReq = (none, c6Cat)) :=
  ⟨createOrder_price_resolution.1 c6Cat 0 c6Req c6wOut.1 c6wOut.2 rfl,
   createOrder_price_resolution.2 c6Cat 0 c6BadReq [] c6BadLine [] 3 c6Med rfl
     (by intro it hit; cases hit) rfl (by decide) rfl (by decide) rfl
     (Or.inl (by norm_num [jsOr, c6BadLine, c6Med]))⟩

/-- Claim C9: a cart whose lines each individually fit the stock but whose
combined demand on some catalog entry exceeds it passes the per-line
validation pass and then fails at the pre-decrement re-check with the
concurrent-order-conflict error; nothing is persisted and no stock changes. -/
theorem createOrder_duplicate_lines_conflict (σ : Catalog) (now : ℤ)
    (req : OrderRequest) (mid : Nat) (m : Medicine) (hwf : CatalogWF σ)
    (hbasic : ∀ item ∈ req.items, lineBasicOkB σ now item = true)
    (hissues : lineIssues σ now req.items = [])
    (hm : σ mid = some m)
    (hover : m.quantity < totalOrdered req.items mid) :
    ∃ n, createOrder σ now req = Except.error (OrderError.concurrentConflict n) ∧
      runCreateOrder σ now req = (none, σ) := by
  have hne : ¬ req.items.isEmpty = true := by
    intro hc
    rw [List.isEmpty_iff.mp hc, totalOrdered_nil] at hover
    exact absurd hover (not_lt.mpr (hwf mid m hm).2)
  obtain ⟨acc2, sub2, prof2, hp⟩ := processItems_no_invalid σ now req.items [] [] 0 0 hbasic
  rw [hissues] at hp
  have hp2 : processItems σ now req.items [] [] 0 0 = Except.ok ([], acc2, sub2, prof2) := by
    simpa using hp
  have hpres : ∀ item ∈ req.items, ∃ mid1 m1, item.medicineId = some mid1 ∧ σ mid1 = some m1 := by
    intro item hit
    have hb := hbasic item hit
    cases hid : item.medicineId with
    | none => simp [lineBasicOkB, hid] at hb
    | some mid1 =>
      obtain ⟨m1, hm1, -, -⟩ := lineIssues_nil_facts σ now req.items hissues item hit mid1 hid
      exact ⟨mid1, m1, rfl, hm1⟩
  cases hdec : decrementLoop σ req.items with
  | ok σ3 =>
    exfalso
    have hq3 := decrementLoop_quantity req.items σ σ3 hdec mid
    rw [hm] at hq3
    cases h3 : σ3 mid with
    | none => rw [h3] at hq3; exact Option.noConfusion hq3
    | some m3 =>
      rw [h3] at hq3
      simp only [Option.map_some', Option.some.injEq] at hq3
      have hnn := decrementLoop_nonneg req.items σ σ3 (fun i mm h => (hwf i mm h).2) hdec mid m3 h3
      omega
  | error e =>
    obtain ⟨n, hn⟩ := decrementLoop_error_conflict req.items σ e hpres hdec
    subst hn
    have h1 : createOrder σ now req = Except.error (OrderError.concurrentConflict n) := by
      unfold createOrder
      rw [if_neg hne]
      simp only [hp2, List.isEmpty_nil, if_true, hdec]
    exact ⟨n, h1, by unfold runCreateOrder; rw [h1]⟩

/-! ### Concrete inputs for claim C9: stock 3, two lines of 2 each. -/

def c9Med : Medicine :=
  { name := "A", manufacturer := "M", batchNumber := none, retailPrice := 10,
    tradePrice := 5, gstPerUnit := 0, quantity := 3, expiryDate := none }

def c9Cat : Catalog := ofList [(1, c9Med)]

def c9Line : CartItem :=
  { medicineId := some 1, quantity := 2, unitPrice := none, tradePrice := none,
    discountPercent := none, gstPerUnit := none }

def c9Req : OrderRequest :=
  { items := [c9Line, c9Line], customer := none, payment := none, totals := none,
    status := none }

theorem createOrder_duplicate_lines_conflict_witness :
    ∃ n, createOrder c9Cat 0 c9Req = Except.error (OrderError.concurrentConflict n) ∧
      runCreateOrder c9Cat 0 c9Req = (none, c9Cat) :=
  createOrder_duplicate_lines_conflict c9Cat 0 c9Req 1 c9Med
    (ofList_wf _ (by
      intro p hp
      simp only [List.mem_singleton] at hp
      subst hp
      exact ⟨by norm_num [c9Med], by norm_num [c9Med]⟩))
    (by decide) (by decide) rfl (by decide)

end Medical